import Mathlib

/-!
Shallow embedding of the CHIP-8 interpreter core (`src/chip8.rs` of
arskiy/chip8-rs) and verification of the specification's claims about it.

Modelling conventions:
* Rust machine integers become `Nat` with explicit reductions where the Rust
  type wraps: `u8` arithmetic is reduced `% 256`, `usize` wrapping arithmetic
  `% 2^64`.  Bit-mask/shift decode expressions are written in their exact
  arithmetic form (on `Nat`, `(op &&& 0xF000) >>> 12 = op / 4096 % 16`,
  `op &&& 0x0FFF = op % 4096`, `op &&& 0xFF = op % 256`, and
  `(b1 as u16) << 8 | (b2 as u16) = b1 * 256 + b2` for bytes `b1 b2 < 256`;
  the `% 256` normalisations in `fetch` are the `u8` reads).
* Rust fixed-size arrays (`[u8; 4096]`, `[usize; 16]`, `[bool; 16]`,
  `[[u8; 64]; 32]`) become total functions out of `Nat` together with the
  explicit bounds check that Rust's indexing performs: an out-of-bounds
  index is a Rust panic, modelled as the `Outcome.crash` result.  Indexing
  that is always in bounds by the `u4` type of the decoded field (register
  indices) carries no check, exactly as the Rust code cannot panic there.
* `usize` subtraction overflow (`sp -= 1` at `sp = 0`) aborts the program in
  both build profiles (debug: arithmetic-overflow panic; release: wrap to
  `2^64 - 1` followed by an out-of-bounds stack index panic), so it is also
  modelled as `Outcome.crash`.
* The in-place infinite loop of `op_fx0a` when no key is pressed is
  non-termination, modelled as the `Outcome.hang` result.
* The `rand::thread_rng` byte drawn by `op_cxkk` is passed in as an explicit
  `rnd` argument.
-/

/-- Pointwise update of a one-dimensional array modelled as a function. -/
def updf (f : Nat → Nat) (i v : Nat) : Nat → Nat :=
  fun j => if j = i then v else f j

/-- Pointwise update of a two-dimensional array modelled as a function. -/
def updf2 (f : Nat → Nat → Nat) (r c v : Nat) : Nat → Nat → Nat :=
  fun r' c' => if r' = r ∧ c' = c then v else f r' c'

/-- `u8` wrapping subtraction (`a.wrapping_sub(b)` for byte values). -/
def wsub8 (a b : Nat) : Nat :=
  (a % 256 + (256 - b % 256)) % 256

/-- Machine state, field for field the Rust `struct Chip8` (the `display`
collaborator is external and holds no machine state). -/
structure Chip8 where
  pc : Nat                  -- program counter (usize)
  op : Nat                  -- current opcode (u16)
  ir : Nat                  -- index register (usize)
  sp : Nat                  -- stack pointer (usize)
  delay_timer : Nat         -- u8
  sound_timer : Nat         -- u8
  registers : Nat → Nat     -- [u8; 16]
  keypad : Nat → Bool       -- [bool; 16]
  ram : Nat → Nat           -- [u8; 4096]
  vram : Nat → Nat → Nat    -- [[u8; 64]; 32], row-major: vram y x
  stack : Nat → Nat         -- [usize; 16]
  draw_flag : Bool

/-- Result of running a piece of the interpreter: a successor machine state,
a Rust panic / abort (`crash`), or non-termination (`hang`). -/
inductive Outcome where
  | ok : Chip8 → Outcome
  | crash : Outcome
  | hang : Outcome

/-- Sequencing of fallible interpreter steps. -/
def obind : Outcome → (Chip8 → Outcome) → Outcome
  | Outcome.ok s, f => f s
  | Outcome.crash, _ => Outcome.crash
  | Outcome.hang, _ => Outcome.hang

/-- Program counter of a successful outcome. -/
def outPc : Outcome → Option Nat
  | Outcome.ok s => some s.pc
  | _ => none

/-- Index register of a successful outcome. -/
def outIr : Outcome → Option Nat
  | Outcome.ok s => some s.ir
  | _ => none

/-- One general-purpose register of a successful outcome. -/
def outReg (o : Outcome) (i : Nat) : Option Nat :=
  match o with
  | Outcome.ok s => some (s.registers i)
  | _ => none

namespace Chip8

/-- `Chip8::new(fontset)`: zeroed state, `ram[i] = fontset[i]` for
`i < fontset.len()`, `pc = 0x200`.  (Rust would panic for a fontset longer
than 4096 bytes; the only caller passes the fixed 80-byte font table.) -/
def new (fontset : List Nat) : Chip8 where
  pc := 0x200
  op := 0x0
  ir := 0x0
  sp := 0x0
  delay_timer := 0
  sound_timer := 0
  registers := fun _ => 0
  keypad := fun _ => false
  ram := (List.range fontset.length).foldl (fun r i => updf r i (fontset.getD i 0)) (fun _ => 0)
  vram := fun _ _ => 0
  stack := fun _ => 0
  draw_flag := false

/-- `Chip8::load_rom`: copy `data[i]` to `ram[i + 0x200]`, silently dropping
bytes whose target address would be `≥ 4096`. -/
def load_rom (s : Chip8) (data : List Nat) : Chip8 :=
  let ram' := (List.range data.length).foldl
    (fun r i => if i + 0x200 < 4096 then updf r (i + 0x200) (data.getD i 0) else r) s.ram
  { s with ram := ram' }

/-- `Chip8::fetch`: `op = (ram[pc] as u16) << 8 | ram[pc+1] as u16; pc += 2`.
The two `ram` indexings panic unless `pc + 1 < 4096`; on byte values the
shift-or is `b1 * 256 + b2` (the `% 256` are the `u8` cell reads). -/
def fetch (s : Chip8) : Outcome :=
  if s.pc + 1 < 4096 then
    Outcome.ok { s with op := (s.ram s.pc % 256) * 256 + s.ram (s.pc + 1) % 256,
                        pc := s.pc + 2 }
  else Outcome.crash

/-- `op_00e0` (CLS): zero every cell of the 32×64 framebuffer, set the dirty
flag. -/
def op_00e0 (s : Chip8) : Chip8 :=
  { s with vram := fun _ _ => 0, draw_flag := true }

/-- `op_00ee` (RET): `sp -= 1; pc = stack[sp]`.  At `sp = 0` the `usize`
decrement aborts (debug: overflow panic; release: wraps, then the stack
indexing is out of bounds); at `sp - 1 ≥ 16` the stack indexing panics. -/
def op_00ee (s : Chip8) : Outcome :=
  if s.sp = 0 then Outcome.crash
  else if s.sp - 1 < 16 then
    Outcome.ok { s with sp := s.sp - 1, pc := s.stack (s.sp - 1) }
  else Outcome.crash

/-- `op_1nnn` (JP addr): `pc = nnn`. -/
def op_1nnn (s : Chip8) (nnn : Nat) : Chip8 :=
  { s with pc := nnn }

/-- `op_2nnn` (CALL addr): `stack[sp] = pc; sp += 1; pc = nnn`.  The stack
indexing panics unless `sp < 16`. -/
def op_2nnn (s : Chip8) (nnn : Nat) : Outcome :=
  if s.sp < 16 then
    Outcome.ok { s with stack := updf s.stack s.sp s.pc, sp := s.sp + 1, pc := nnn }
  else Outcome.crash

/-- `op_3xkk` (SE Vx, byte): skip if `Vx = kk`. -/
def op_3xkk (s : Chip8) (x kk : Nat) : Chip8 :=
  if s.registers x = kk then { s with pc := s.pc + 2 } else s

/-- `op_4xkk` (SNE Vx, byte): skip if `Vx ≠ kk`. -/
def op_4xkk (s : Chip8) (x kk : Nat) : Chip8 :=
  if s.registers x ≠ kk then { s with pc := s.pc + 2 } else s

/-- `op_5xy0` (SE Vx, Vy): skip if `Vx = Vy`. -/
def op_5xy0 (s : Chip8) (x y : Nat) : Chip8 :=
  if s.registers x = s.registers y then { s with pc := s.pc + 2 } else s

/-- `op_6xkk` (LD Vx, byte): `Vx = kk`. -/
def op_6xkk (s : Chip8) (x kk : Nat) : Chip8 :=
  { s with registers := updf s.registers x kk }

/-- `op_7xkk` (ADD Vx, byte): `Vx = Vx.wrapping_add(kk)` (`u8` wrap). -/
def op_7xkk (s : Chip8) (x kk : Nat) : Chip8 :=
  { s with registers := updf s.registers x ((s.registers x + kk) % 256) }

/-- `op_8xy0` (LD Vx, Vy): `Vx = Vy`. -/
def op_8xy0 (s : Chip8) (x y : Nat) : Chip8 :=
  { s with registers := updf s.registers x (s.registers y) }

/-- `op_8xy1` (OR Vx, Vy): `Vx |= Vy`. -/
def op_8xy1 (s : Chip8) (x y : Nat) : Chip8 :=
  { s with registers := updf s.registers x (s.registers x ||| s.registers y) }

/-- `op_8xy2` (AND Vx, Vy): `Vx &= Vy`. -/
def op_8xy2 (s : Chip8) (x y : Nat) : Chip8 :=
  { s with registers := updf s.registers x (s.registers x &&& s.registers y) }

/-- `op_8xy3` (XOR Vx, Vy): `Vx ^= Vy`. -/
def op_8xy3 (s : Chip8) (x y : Nat) : Chip8 :=
  { s with registers := updf s.registers x (s.registers x ^^^ s.registers y) }

/-- `op_8xy4` (ADD Vx, Vy): `sum = Vx + Vy` (usize); `Vx = sum & 0xFF`
(`= sum % 256`); then `VF = if sum > 0xFF { 1 } else { 0 }` — note the flag
is written after the sum, so `x = 15` sees its sum overwritten. -/
def op_8xy4 (s : Chip8) (x y : Nat) : Chip8 :=
  let sum := s.registers x + s.registers y
  let r1 := updf s.registers x (sum % 256)
  { s with registers := updf r1 15 (if 255 < sum then 1 else 0) }

/-- `op_8xy5` (SUB Vx, Vy): `VF = (Vx > Vy) as u8` first, then
`Vx = Vx.wrapping_sub(Vy)` reading the register file after the flag
write (so `x = 15` or `y = 15` read the freshly written flag). -/
def op_8xy5 (s : Chip8) (x y : Nat) : Chip8 :=
  let r1 := updf s.registers 15 (if s.registers y < s.registers x then 1 else 0)
  { s with registers := updf r1 x (wsub8 (r1 x) (r1 y)) }

/-- `op_8xy6` (SHR Vx): `VF = Vx & 1` first, then `Vx >>= 1` reading after
the flag write. -/
def op_8xy6 (s : Chip8) (x : Nat) : Chip8 :=
  let r1 := updf s.registers 15 (s.registers x % 2)
  { s with registers := updf r1 x (r1 x / 2) }

/-- `op_8xy7` (SUBN Vx, Vy): `VF = (Vx < Vy) as u8` first, then
`Vx = Vy.wrapping_sub(Vx)` reading the register file after the flag write. -/
def op_8xy7 (s : Chip8) (x y : Nat) : Chip8 :=
  let r1 := updf s.registers 15 (if s.registers x < s.registers y then 1 else 0)
  { s with registers := updf r1 x (wsub8 (r1 y) (r1 x)) }

/-- `op_8xye` (SHL Vx): `VF = (Vx & 0x80) >> 7` first, then `Vx <<= 1`
(`u8` shift drops the high bit: `Vx * 2 % 256`) reading after the flag
write. -/
def op_8xye (s : Chip8) (x : Nat) : Chip8 :=
  let r1 := updf s.registers 15 (s.registers x / 128 % 2)
  { s with registers := updf r1 x (r1 x * 2 % 256) }

/-- `op_9xy0` (SNE Vx, Vy): skip if `Vx ≠ Vy`. -/
def op_9xy0 (s : Chip8) (x y : Nat) : Chip8 :=
  if s.registers x ≠ s.registers y then { s with pc := s.pc + 2 } else s

/-- `op_annn` (LD I, addr): `ir = nnn`. -/
def op_annn (s : Chip8) (nnn : Nat) : Chip8 :=
  { s with ir := nnn }

/-- `op_bnnn` (JP V0, addr): `pc = (nnn + V0 as u16) as usize` (the `u16`
sum of a 12-bit address and a byte cannot overflow). -/
def op_bnnn (s : Chip8) (nnn : Nat) : Chip8 :=
  { s with pc := nnn + s.registers 0 }

/-- `op_cxkk` (RND Vx, byte): `Vx = n & kk` for a thread-rng byte `n`,
passed in here as the explicit `rnd` argument (reduced to a byte). -/
def op_cxkk (rnd : Nat) (s : Chip8) (x kk : Nat) : Chip8 :=
  { s with registers := updf s.registers x ((rnd % 256) &&& kk) }

/-- One sprite bit: `(row >> (7 - j)) & 0b1` as `row / 2^(7-j) % 2`. -/
def spriteBit (row j : Nat) : Nat :=
  row / 2 ^ (7 - j) % 2

/-- Body of the inner `for j in 0..8` loop of `op_dxyn`, threading the
framebuffer and the whole register file (the Rust loop re-reads
`self.registers[x]` every iteration and updates `self.registers[15]`):
`x' = (registers[x] + j) % 64; registers[15] |= pixel & vram[y'][x'];
vram[y'][x'] ^= pixel` (flag update reads the pre-XOR pixel). -/
def drawInner (yy x row : Nat) (p : (Nat → Nat → Nat) × (Nat → Nat)) (j : Nat) :
    (Nat → Nat → Nat) × (Nat → Nat) :=
  let xx := (p.2 x + j) % 64
  let pixel := spriteBit row j
  (updf2 p.1 yy xx (p.1 yy xx ^^^ pixel),
   updf p.2 15 (p.2 15 ||| (pixel &&& p.1 yy xx)))

/-- `op_dxyn` (DRW Vx, Vy, n): `registers[15] = 0`, then for each row
`i < n`: `y' = (registers[y] + i) % 32` (re-read each row), read sprite
byte `ram[ir + i]` (panics unless `ir + i < 4096`), run the 8-bit inner
loop; finally set the dirty flag. -/
def op_dxyn (s : Chip8) (x y n : Nat) : Outcome :=
  match (List.range n).foldl
    (fun acc i =>
      match acc with
      | none => none
      | some p =>
        if s.ir + i < 4096 then
          some ((List.range 8).foldl (drawInner ((p.2 y + i) % 32) x (s.ram (s.ir + i))) p)
        else none)
    (some (s.vram, updf s.registers 15 0)) with
  | none => Outcome.crash
  | some p => Outcome.ok { s with vram := p.1, registers := p.2, draw_flag := true }

/-- `op_ex9e` (SKP Vx): skip if `keypad[Vx]`; the keypad indexing panics
unless `Vx < 16`. -/
def op_ex9e (s : Chip8) (x : Nat) : Outcome :=
  if s.registers x < 16 then
    Outcome.ok (if s.keypad (s.registers x) then { s with pc := s.pc + 2 } else s)
  else Outcome.crash

/-- `op_exa1` (SKNP Vx): skip if `!keypad[Vx]`; the keypad indexing panics
unless `Vx < 16`. -/
def op_exa1 (s : Chip8) (x : Nat) : Outcome :=
  if s.registers x < 16 then
    Outcome.ok (if s.keypad (s.registers x) then s else { s with pc := s.pc + 2 })
  else Outcome.crash

/-- `op_fx07` (LD Vx, DT): `Vx = delay_timer`. -/
def op_fx07 (s : Chip8) (x : Nat) : Chip8 :=
  { s with registers := updf s.registers x s.delay_timer }

/-- First pressed key of the 16-entry snapshot, scanning `0..16` in order
(the Rust `for key in 0..self.keypad.len()` with `break` at the first hit). -/
def firstPressed (kp : Nat → Bool) : Option Nat :=
  (List.range 16).foldl
    (fun acc k => match acc with
      | some _ => acc
      | none => if kp k then some k else none)
    none

/-- `op_fx0a` (LD Vx, K): the Rust body is `loop { for key in 0..16 { if
keypad[key] { registers[x] = key; break 'halt } } }`.  The keypad snapshot
is not refreshed inside the loop, so the loop terminates exactly when some
key is already pressed, storing the first pressed index; with no key
pressed it spins forever in place — denoted `Outcome.hang`. -/
def op_fx0a (s : Chip8) (x : Nat) : Outcome :=
  match firstPressed s.keypad with
  | some k => Outcome.ok { s with registers := updf s.registers x k }
  | none => Outcome.hang

/-- `op_fx15` (LD DT, Vx): `delay_timer = Vx`. -/
def op_fx15 (s : Chip8) (x : Nat) : Chip8 :=
  { s with delay_timer := s.registers x }

/-- `op_fx18` (LD ST, Vx): `sound_timer = Vx`. -/
def op_fx18 (s : Chip8) (x : Nat) : Chip8 :=
  { s with sound_timer := s.registers x }

/-- `op_fx1e` (ADD I, Vx): `ir = ir.wrapping_add(Vx as usize)` — a `usize`
wrap (modulo `2^64`), not a reduction modulo the memory size. -/
def op_fx1e (s : Chip8) (x : Nat) : Chip8 :=
  { s with ir := (s.ir + s.registers x) % 18446744073709551616 }

/-- `op_fx29` (LD F, Vx): `ir = Vx as usize * 5`. -/
def op_fx29 (s : Chip8) (x : Nat) : Chip8 :=
  { s with ir := s.registers x * 5 }

/-- `op_fx33` (LD B, Vx): BCD of `Vx` into `ram[ir], ram[ir+1], ram[ir+2]`;
the indexing panics at the first address `≥ 4096`, i.e. unless
`ir + 2 < 4096`. -/
def op_fx33 (s : Chip8) (x : Nat) : Outcome :=
  if s.ir + 2 < 4096 then
    let n := s.registers x
    let ram' := updf (updf (updf s.ram s.ir (n / 100)) (s.ir + 1) (n / 10 % 10)) (s.ir + 2) (n % 10)
    Outcome.ok { s with ram := ram' }
  else Outcome.crash

/-- `op_fx55` (LD [I], Vx): `ram[ir + i] = registers[i]` for `i in 0..=x`;
panics at the first out-of-bounds address, i.e. unless `ir + x < 4096`. -/
def op_fx55 (s : Chip8) (x : Nat) : Outcome :=
  if s.ir + x < 4096 then
    let ram' := (List.range (x + 1)).foldl (fun r i => updf r (s.ir + i) (s.registers i)) s.ram
    Outcome.ok { s with ram := ram' }
  else Outcome.crash

/-- `op_fx65` (LD Vx, [I]): `registers[i] = ram[ir + i]` for `i in 0..=x`;
panics at the first out-of-bounds address, i.e. unless `ir + x < 4096`. -/
def op_fx65 (s : Chip8) (x : Nat) : Outcome :=
  if s.ir + x < 4096 then
    let regs' := (List.range (x + 1)).foldl (fun r i => updf r i (s.ram (s.ir + i))) s.registers
    Outcome.ok { s with registers := regs' }
  else Outcome.crash

/-- First instruction nibble: `(op & 0xF000) >> 12 = op / 4096 % 16`. -/
def nib1 (op : Nat) : Nat := op / 4096 % 16

/-- Second instruction nibble: `(op & 0x0F00) >> 8 = op / 256 % 16`. -/
def nib2 (op : Nat) : Nat := op / 256 % 16

/-- Third instruction nibble: `(op & 0x00F0) >> 4 = op / 16 % 16`. -/
def nib3 (op : Nat) : Nat := op / 16 % 16

/-- Fourth instruction nibble: `op & 0x000F = op % 16`. -/
def nib4 (op : Nat) : Nat := op % 16

/-- `Chip8::decode_execute`: split `op` into its four nibbles `hex =
(nib1, nib2, nib3, nib4)`, extract `nnn = op & 0x0FFF = op % 4096` and the
lower byte `kk = op & 0xFF = op % 256`, take `x` from the second nibble,
`y` from the third and `n` from the fourth, and dispatch on the nibble
tuple exactly as the Rust `match`, arm for arm in source order; any
unmatched pattern is a no-op. -/
def decode_execute (rnd : Nat) (s : Chip8) : Outcome :=
  if nib1 s.op = 0x0 ∧ nib2 s.op = 0x0 ∧ nib3 s.op = 0xe ∧ nib4 s.op = 0x0 then Outcome.ok (op_00e0 s)
  else if nib1 s.op = 0x0 ∧ nib2 s.op = 0x0 ∧ nib3 s.op = 0xe ∧ nib4 s.op = 0xe then op_00ee s
  else if nib1 s.op = 0x1 then Outcome.ok (op_1nnn s (s.op % 4096))
  else if nib1 s.op = 0x2 then op_2nnn s (s.op % 4096)
  else if nib1 s.op = 0x3 then Outcome.ok (op_3xkk s (nib2 s.op) (s.op % 256))
  else if nib1 s.op = 0x4 then Outcome.ok (op_4xkk s (nib2 s.op) (s.op % 256))
  else if nib1 s.op = 0x5 ∧ nib4 s.op = 0x0 then Outcome.ok (op_5xy0 s (nib2 s.op) (nib3 s.op))
  else if nib1 s.op = 0x6 then Outcome.ok (op_6xkk s (nib2 s.op) (s.op % 256))
  else if nib1 s.op = 0x7 then Outcome.ok (op_7xkk s (nib2 s.op) (s.op % 256))
  else if nib1 s.op = 0x8 ∧ nib4 s.op = 0x0 then Outcome.ok (op_8xy0 s (nib2 s.op) (nib3 s.op))
  else if nib1 s.op = 0x8 ∧ nib4 s.op = 0x1 then Outcome.ok (op_8xy1 s (nib2 s.op) (nib3 s.op))
  else if nib1 s.op = 0x8 ∧ nib4 s.op = 0x2 then Outcome.ok (op_8xy2 s (nib2 s.op) (nib3 s.op))
  else if nib1 s.op = 0x8 ∧ nib4 s.op = 0x3 then Outcome.ok (op_8xy3 s (nib2 s.op) (nib3 s.op))
  else if nib1 s.op = 0x8 ∧ nib4 s.op = 0x4 then Outcome.ok (op_8xy4 s (nib2 s.op) (nib3 s.op))
  else if nib1 s.op = 0x8 ∧ nib4 s.op = 0x5 then Outcome.ok (op_8xy5 s (nib2 s.op) (nib3 s.op))
  else if nib1 s.op = 0x8 ∧ nib4 s.op = 0x6 then Outcome.ok (op_8xy6 s (nib2 s.op))
  else if nib1 s.op = 0x8 ∧ nib4 s.op = 0x7 then Outcome.ok (op_8xy7 s (nib2 s.op) (nib3 s.op))
  else if nib1 s.op = 0x8 ∧ nib4 s.op = 0xe then Outcome.ok (op_8xye s (nib2 s.op))
  else if nib1 s.op = 0x9 ∧ nib4 s.op = 0x0 then Outcome.ok (op_9xy0 s (nib2 s.op) (nib3 s.op))
  else if nib1 s.op = 0xa then Outcome.ok (op_annn s (s.op % 4096))
  else if nib1 s.op = 0xb then Outcome.ok (op_bnnn s (s.op % 4096))
  else if nib1 s.op = 0xc then Outcome.ok (op_cxkk rnd s (nib2 s.op) (s.op % 256))
  else if nib1 s.op = 0xd then op_dxyn s (nib2 s.op) (nib3 s.op) (nib4 s.op)
  else if nib1 s.op = 0xe ∧ nib3 s.op = 0x9 ∧ nib4 s.op = 0xe then op_ex9e s (nib2 s.op)
  else if nib1 s.op = 0xe ∧ nib3 s.op = 0xa ∧ nib4 s.op = 0x1 then op_exa1 s (nib2 s.op)
  else if nib1 s.op = 0xf ∧ nib3 s.op = 0x0 ∧ nib4 s.op = 0x7 then Outcome.ok (op_fx07 s (nib2 s.op))
  else if nib1 s.op = 0xf ∧ nib3 s.op = 0x0 ∧ nib4 s.op = 0xa then op_fx0a s (nib2 s.op)
  else if nib1 s.op = 0xf ∧ nib3 s.op = 0x1 ∧ nib4 s.op = 0x5 then Outcome.ok (op_fx15 s (nib2 s.op))
  else if nib1 s.op = 0xf ∧ nib3 s.op = 0x1 ∧ nib4 s.op = 0x8 then Outcome.ok (op_fx18 s (nib2 s.op))
  else if nib1 s.op = 0xf ∧ nib3 s.op = 0x1 ∧ nib4 s.op = 0xe then Outcome.ok (op_fx1e s (nib2 s.op))
  else if nib1 s.op = 0xf ∧ nib3 s.op = 0x2 ∧ nib4 s.op = 0x9 then Outcome.ok (op_fx29 s (nib2 s.op))
  else if nib1 s.op = 0xf ∧ nib3 s.op = 0x3 ∧ nib4 s.op = 0x3 then op_fx33 s (nib2 s.op)
  else if nib1 s.op = 0xf ∧ nib3 s.op = 0x5 ∧ nib4 s.op = 0x5 then op_fx55 s (nib2 s.op)
  else if nib1 s.op = 0xf ∧ nib3 s.op = 0x6 ∧ nib4 s.op = 0x5 then op_fx65 s (nib2 s.op)
  else Outcome.ok s

/-- `Chip8::cycle`: one fetch-decode-execute step. -/
def cycle (rnd : Nat) (s : Chip8) : Outcome :=
  obind (fetch s) (decode_execute rnd)

end Chip8


/-- Sequential XOR-compositing over a flattened list of draw targets
`((row, column), pixel)`, accumulating the collision flag exactly as the
inner loop of `op_dxyn` does: first `flag ||| (pixel &&& old cell)`, then
`cell ^^^ pixel`. -/
def xorRun : List ((Nat × Nat) × Nat) → (Nat → Nat → Nat) → Nat → ((Nat → Nat → Nat) × Nat)
  | [], v, f => (v, f)
  | (e :: t), v, f =>
      xorRun t (updf2 v e.1.1 e.1.2 (v e.1.1 e.1.2 ^^^ e.2))
        (f ||| (e.2 &&& v e.1.1 e.1.2))

/-- Accumulated XOR of all pixels a target list sends to a given cell. -/
def xorSum : List ((Nat × Nat) × Nat) → Nat → Nat → Nat
  | [], _, _ => 0
  | (e :: t), r, c => if e.1.1 = r ∧ e.1.2 = c then e.2 ^^^ xorSum t r c else xorSum t r c

/-- Accumulated OR of the collision terms of a target list, all read against
one fixed framebuffer. -/
def orHits : List ((Nat × Nat) × Nat) → (Nat → Nat → Nat) → Nat → Nat
  | [], _, f => f
  | (e :: t), v, f => orHits t v (f ||| (e.2 &&& v e.1.1 e.1.2))

/-- The flattened target list of one sprite draw with fixed coordinate
registers: row-major, rows `i < n`, bits `j < 8`, cell
`((Y + i) % 32, (X + j) % 64)`, pixel `spriteBit (ram (ir + i)) j`. -/
def drawTargets (X Y ir n : Nat) (ram : Nat → Nat) : List ((Nat × Nat) × Nat) :=
  (List.range n).flatMap (fun i =>
    (List.range 8).map (fun j =>
      (((Y + i) % 32, (X + j) % 64), Chip8.spriteBit (ram (ir + i)) j)))

/-! ## Basic facts about pointwise updates -/

theorem updf_at (f : Nat → Nat) (i v : Nat) : updf f i v i = v := by
  simp [updf]

theorem updf_ne (f : Nat → Nat) (i v j : Nat) (h : j ≠ i) : updf f i v j = f j := by
  simp [updf, h]

theorem updf2_at (f : Nat → Nat → Nat) (r c v : Nat) : updf2 f r c v r c = v := by
  simp [updf2]

theorem updf2_ne (f : Nat → Nat → Nat) (r c v r' c' : Nat) (h : ¬(r' = r ∧ c' = c)) :
    updf2 f r c v r' c' = f r' c' := by
  simp only [updf2, if_neg h]

theorem updf_updf_self (f : Nat → Nat) (i a b : Nat) :
    updf (updf f i a) i b = updf f i b := by
  funext j
  by_cases h : j = i <;> simp [updf, h]

/-! ## Claim C1 — one cycle never crashes

The code refutes this: the two-instruction ROM `AF FF F1 33` first sets the
index register to `0xFFF` (`ANNN`), then executes the BCD instruction
(`FX33`), whose write to `ram[ir + 1] = ram[4096]` is out of bounds. -/

/-- C1: the claim "executing one fetch-decode-execute cycle never crashes"
fails on the code: from a freshly constructed machine loaded with the ROM
`[0xAF, 0xFF, 0xF1, 0x33]`, the second cycle aborts with an out-of-bounds
RAM write (`op_fx33` at `ir = 0xFFF`). -/
theorem claim_C1_cycle_crashes :
    obind (Chip8.cycle 0 (Chip8.load_rom (Chip8.new []) [0xAF, 0xFF, 0xF1, 0x33]))
      (Chip8.cycle 0) = Outcome.crash := by
  rfl

/-! ## Claim C2 — bounds-checked call stack

The spec requires a recoverable `StackOverflow` / `StackUnderflow`; the code
instead panics (out-of-bounds stack indexing at `sp = 16`, `usize` underflow
followed by out-of-bounds indexing at `sp = 0`). -/

/-- C2: the claim "call at stack capacity fails with a recoverable
StackOverflow, return at stack pointer 0 fails with a recoverable
StackUnderflow" fails on the code: a CALL (`0x2300`) with `sp = 16` and a
RET (`0x00EE`) with `sp = 0` both abort the interpreter instead of raising
a recoverable condition. -/
theorem claim_C2_stack_unchecked :
    Chip8.decode_execute 0 { Chip8.new [] with op := 0x2300, sp := 16 } = Outcome.crash ∧
    Chip8.decode_execute 0 { Chip8.new [] with op := 0x00EE, sp := 0 } = Outcome.crash := by
  exact ⟨rfl, rfl⟩

/-! ## Claim C3 — key-skip bounds

The spec requires masking to 4 bits or a recoverable `InvalidKeyIndex`; the
code indexes the 16-entry keypad snapshot with the raw register value. -/

/-- C3: the claim "the queried value is masked to 4 bits or rejected with
InvalidKeyIndex before indexing" fails on the code: with `V0 = 16`, both
`EX9E` (skip-if-key-pressed) and `EXA1` (skip-if-key-not-pressed) perform
the out-of-bounds read `keypad[16]` and abort. -/
theorem claim_C3_keyskip_unchecked :
    Chip8.decode_execute 0
      { Chip8.new [] with op := 0xE09E, registers := updf (fun _ => 0) 0 16 } = Outcome.crash ∧
    Chip8.decode_execute 0
      { Chip8.new [] with op := 0xE0A1, registers := updf (fun _ => 0) 0 16 } = Outcome.crash := by
  exact ⟨rfl, rfl⟩

/-! ## Claim C4 — wait-for-key is a suspended instruction, not a spin

The spec requires the wait to be re-entrant, one check per tick, with the
program counter left unadvanced; the code instead enters an in-place
infinite loop over the (never refreshed) keypad snapshot, so with no key
pressed the tick never completes and every later poll / render / timer /
audio step is starved. -/

/-- C4: the claim "while no key is pressed the operation leaves the program
counter unadvanced so the same instruction is re-decoded on the next tick,
and the rest of every tick still runs" fails on the code: executing `FX0A`
with no key pressed in the snapshot never returns (in-place busy spin),
rather than completing the tick with the program counter held. -/
theorem claim_C4_wait_spins :
    Chip8.decode_execute 0 { Chip8.new [] with op := 0xF00A } = Outcome.hang := by
  rfl

/-! ## Claim C5 — add-to-index wraps modulo 4096

The code wraps `ir + Vx` modulo `2^64` (a `usize` `wrapping_add`), not
modulo the memory size, so the index register can leave the address space. -/

/-- C5: the claim "the add-to-index-register operation stores the sum
reduced modulo 4096, so the index register is always a valid memory address
afterward" fails on the code: from `ir = 4000`, `V0 = 200`, `FX1E` leaves
`ir = 4200`, which is neither the modular sum `(4000 + 200) % 4096 = 104`
nor a valid memory address. -/
theorem claim_C5_fx1e_no_wrap :
    outIr (Chip8.decode_execute 0
        { Chip8.new [] with op := 0xF01E, ir := 4000, registers := updf (fun _ => 0) 0 200 })
      = some 4200 ∧ (4000 + 200) % 4096 = 104 ∧ ¬ 4200 < 4096 := by
  exact ⟨rfl, rfl, by decide⟩

/-! ## Claim C6 — subtract semantics

The claim quantifies over *every* pair of register operands.  It fails when
an operand is register 15: the handlers write the flag into register 15
first and then re-read the register file, so a flag-register operand uses
the freshly written flag instead of its original value.  For operands
distinct from register 15 the claim holds. -/

/-- C6 counterexample: with `V0 = 5`, `V15 = 3`, forward subtract `x = 0`,
`y = 15` stores `5 - 1 = 4` (the subtrahend read back is the just-written
flag, not the original `V15 = 3`), not the claimed wraparound difference
`wsub8 5 3 = 2`. -/
theorem claim_C6_counterexample :
    (Chip8.op_8xy5
        { Chip8.new [] with registers := updf (updf (fun _ => 0) 0 5) 15 3 } 0 15).registers 0
      ≠ wsub8 5 3 := by
  decide

/-- C6 (amended): for operand registers distinct from the flag register
(`x ≠ 15`, `y ≠ 15`), forward subtract stores the 8-bit wraparound
difference `Vx - Vy` in `Vx` and sets `VF` to 1 exactly when `Vx > Vy`
before wrapping; the reverse form does the same with the roles swapped. -/
theorem claim_C6_sub_flag (s : Chip8) (x y : Nat) (hx : x ≠ 15) (hy : y ≠ 15) :
    (Chip8.op_8xy5 s x y).registers x = wsub8 (s.registers x) (s.registers y) ∧
    (Chip8.op_8xy5 s x y).registers 15 = (if s.registers y < s.registers x then 1 else 0) ∧
    (Chip8.op_8xy7 s x y).registers x = wsub8 (s.registers y) (s.registers x) ∧
    (Chip8.op_8xy7 s x y).registers 15 = (if s.registers x < s.registers y then 1 else 0) := by
  refine ⟨?_, ?_, ?_, ?_⟩ <;>
    simp [Chip8.op_8xy5, Chip8.op_8xy7, updf, hx, hy, Ne.symm hx, Ne.symm hy]

/-- C6 witness: at `V0 = 0x01`, `V1 = 0x02`, forward subtract yields
`V0 = 0xFF` and flag `0` — the spec's own example. -/
theorem claim_C6_witness :
    (Chip8.op_8xy5
        { Chip8.new [] with registers := updf (updf (fun _ => 0) 0 1) 1 2 } 0 1).registers 0
        = 0xFF ∧
    (Chip8.op_8xy5
        { Chip8.new [] with registers := updf (updf (fun _ => 0) 0 1) 1 2 } 0 1).registers 15
        = 0 := by
  have h := claim_C6_sub_flag
    { Chip8.new [] with registers := updf (updf (fun _ => 0) 0 1) 1 2 } 0 1
    (by decide) (by decide)
  exact ⟨h.1.trans (by decide), (h.2.1).trans (by decide)⟩

/-! ## Claim C9 — ROM loading leaves low memory untouched -/

/-- Helper for C9: the `load_rom` fold never writes an address below
`0x200`, whatever the prefix length. -/
theorem load_rom_fold_low (data : List Nat) (a : Nat) (ha : a < 0x200) :
    ∀ (n : Nat) (r : Nat → Nat),
      ((List.range n).foldl
        (fun r i => if i + 0x200 < 4096 then updf r (i + 0x200) (data.getD i 0) else r) r) a
        = r a := by
  intro n
  induction n with
  | zero => intro r; rfl
  | succ n ih =>
    intro r
    rw [List.range_succ, List.foldl_append]
    simp only [List.foldl_cons, List.foldl_nil]
    by_cases h : n + 0x200 < 4096
    · rw [if_pos h, updf_ne _ _ _ _ (by omega), ih]
    · rw [if_neg h, ih]

/-- C9: loading a ROM writes only addresses from `0x200` up: every byte of
the first `0x200` memory addresses is unchanged by `load_rom`, for every
ROM byte sequence. -/
theorem claim_C9_load_rom_low_mem (data : List Nat) (s : Chip8) (a : Nat) (ha : a < 0x200) :
    (Chip8.load_rom s data).ram a = s.ram a := by
  simp only [Chip8.load_rom]
  exact load_rom_fold_low data a ha data.length s.ram

/-- C9 witness: loading a 3-byte ROM leaves address 5 (inside the font
region) unchanged. -/
theorem claim_C9_witness :
    (Chip8.load_rom (Chip8.new [7, 7, 7]) [1, 2, 3]).ram 5 = (Chip8.new [7, 7, 7]).ram 5 :=
  claim_C9_load_rom_low_mem [1, 2, 3] (Chip8.new [7, 7, 7]) 5 (by decide)

/-! ## Claim C10 — determinism of every non-random operation -/

/-- Congruence on the tail of an if-chain with a shared head arm. -/
theorem ite_congr_tail {c : Prop} [Decidable c] {a x y : Outcome}
    (hxy : ¬ c → x = y) : (if c then a else x) = (if c then a else y) := by
  by_cases hc : c
  · rw [if_pos hc, if_pos hc]
  · rw [if_neg hc, if_neg hc, hxy hc]

/-- C10: for every instruction word outside the `Cxkk` (random) family,
`decode_execute` does not depend on the drawn random byte: executing from
equal machine states (the keypad snapshot is part of the state) yields
equal outcomes whatever the randomness source produced. -/
theorem claim_C10_deterministic (s : Chip8) (rnd1 rnd2 : Nat)
    (h : s.op / 4096 % 16 ≠ 0xc) :
    Chip8.decode_execute rnd1 s = Chip8.decode_execute rnd2 s := by
  have hc : ¬ (Chip8.nib1 s.op = 0xc) := by
    simpa [Chip8.nib1] using h
  unfold Chip8.decode_execute
  iterate 21 refine ite_congr_tail (fun _ => ?_)
  rw [if_neg hc, if_neg hc]

/-- C10 witness: a concrete non-random instruction (`00E0`, clear screen)
executed with two different random bytes gives the same outcome. -/
theorem claim_C10_witness :
    Chip8.decode_execute 3 { Chip8.new [] with op := 0x00E0 }
      = Chip8.decode_execute 200 { Chip8.new [] with op := 0x00E0 } :=
  claim_C10_deterministic { Chip8.new [] with op := 0x00E0 } 3 200 (by decide)

/-! ## Claim C8 — call followed by return restores pc to call address + 2 -/

/-- Reduction of `obind` on a successful left operand. -/
theorem obind_ok (s : Chip8) (f : Chip8 → Outcome) : obind (Outcome.ok s) f = f s := rfl

/-- C8: if memory holds a `2nnn` CALL instruction at the current program
counter and a `00EE` RET instruction at the call target `nnn`, and the call
depth after the call is at most 16 (`sp < 16` before the call, i.e. depths
1 up to 16), then executing the two cycles leaves the program counter at
the address immediately following the call instruction (call address + 2),
whatever random bytes the two cycles are offered. -/
theorem claim_C8_call_ret (s : Chip8) (nnn r1 r2 : Nat)
    (hsp : s.sp < 16)
    (hpc : s.pc + 1 < 4096)
    (hnnn2 : nnn + 1 < 4096)
    (hb1 : s.ram s.pc = 0x20 + nnn / 256)
    (hb2 : s.ram (s.pc + 1) = nnn % 256)
    (hrn1 : s.ram nnn = 0x00)
    (hrn2 : s.ram (nnn + 1) = 0xEE) :
    outPc (obind (Chip8.cycle r1 s) (Chip8.cycle r2)) = some (s.pc + 2) := by
  have hnnn : nnn < 4096 := by omega
  have hop : ((0x20 + nnn / 256) % 256) * 256 + nnn % 256 % 256 = 0x2000 + nnn := by omega
  have hn1 : (8192 + nnn) / 4096 % 16 = 2 := by omega
  have hm : (8192 + nnn) % 4096 = nnn := by omega
  have hcy1 : Chip8.cycle r1 s = Outcome.ok
      { s with pc := nnn, op := 8192 + nnn, sp := s.sp + 1,
               stack := updf s.stack s.sp (s.pc + 2) } := by
    unfold Chip8.cycle Chip8.fetch
    rw [if_pos hpc, hb1, hb2, hop, obind_ok]
    simp only [Chip8.decode_execute, Chip8.nib1, Chip8.nib2, Chip8.nib3, Chip8.nib4,
      Chip8.op_2nnn, hn1, hm]
    norm_num
    intro hc
    exact absurd hsp (by omega)
  rw [hcy1, obind_ok]
  unfold Chip8.cycle Chip8.fetch
  dsimp only
  rw [if_pos hnnn2, hrn1, hrn2, obind_ok]
  norm_num
  simp only [Chip8.decode_execute, Chip8.nib1, Chip8.nib2, Chip8.nib3, Chip8.nib4,
    Chip8.op_00ee]
  norm_num
  rw [if_pos hsp]
  simp [outPc, updf_at]

/-- C8 witness: a fresh machine whose RAM holds `CALL 0x300` at `0x200` and
`RET` at `0x300`; the two cycles end with the program counter at `0x202`. -/
theorem claim_C8_witness :
    outPc (obind
        (Chip8.cycle 0 { Chip8.new [] with ram := fun a =>
          if a = 0x200 then 0x23 else if a = 0x201 then 0
          else if a = 0x300 then 0 else if a = 0x301 then 0xEE else 0 })
        (Chip8.cycle 0)) = some 0x202 :=
  claim_C8_call_ret
    { Chip8.new [] with ram := fun a =>
      if a = 0x200 then 0x23 else if a = 0x201 then 0
      else if a = 0x300 then 0 else if a = 0x301 then 0xEE else 0 }
    0x300 0 0 (by decide) (by decide) (by decide) (by decide) (by decide) (by decide) (by decide)

/-! ## Claim C7 — sprite double-draw

The XOR write `vram[y][x] ^= pixel` makes a second identical draw restore
every pixel, but the claim's collision clause is wrong: the second draw
reports a collision only where a set sprite bit lands on a pixel that is
set *at that moment*, i.e. one that was clear before the first draw.  A
sprite whose set bits all fell on originally-set pixels yields flag 0 on
the second draw.  Moreover, when a coordinate operand is register 15, the
in-loop flag writes feed back into the coordinates, so not even the
restore clause survives; the amended claim fixes the coordinate registers
to be distinct from the flag register.

The proofs go through a flattened view of the nested draw loops
(`drawTargets` / `xorRun`), justified by `op_dxyn_run` below. -/

theorem spriteBit_le_one (row j : Nat) : Chip8.spriteBit row j ≤ 1 := by
  unfold Chip8.spriteBit; omega

theorem or_le_one {a b : Nat} (ha : a ≤ 1) (hb : b ≤ 1) : a ||| b ≤ 1 := by
  interval_cases a <;> interval_cases b <;> decide

theorem and_le_one_left {a : Nat} (b : Nat) (ha : a ≤ 1) : a &&& b ≤ 1 :=
  le_trans (Nat.and_le_left) ha

theorem xorRun_fst (l : List ((Nat × Nat) × Nat)) :
    ∀ (v : Nat → Nat → Nat) (f r c : Nat),
      (xorRun l v f).1 r c = v r c ^^^ xorSum l r c := by
  induction l with
  | nil => intro v f r c; simp [xorRun, xorSum]
  | cons e t ih =>
    intro v f r c
    show (xorRun t _ _).1 r c = _
    rw [ih]
    by_cases h : e.1.1 = r ∧ e.1.2 = c
    · have hv : updf2 v e.1.1 e.1.2 (v e.1.1 e.1.2 ^^^ e.2) r c = v r c ^^^ e.2 := by
        simp only [updf2, if_pos (And.intro h.1.symm h.2.symm)]
        rw [h.1, h.2]
      rw [hv, xorSum, if_pos h, Nat.xor_assoc]
    · rw [updf2_ne _ _ _ _ _ _ (fun hc => h ⟨hc.1.symm, hc.2.symm⟩)]
      rw [xorSum, if_neg h]

theorem xorSum_eq_zero (l : List ((Nat × Nat) × Nat)) (r c : Nat)
    (h : ∀ e ∈ l, ¬(e.1.1 = r ∧ e.1.2 = c)) : xorSum l r c = 0 := by
  induction l with
  | nil => rfl
  | cons e t ih =>
    rw [xorSum, if_neg (h e (List.mem_cons_self e t))]
    exact ih (fun e' he' => h e' (List.mem_cons_of_mem e he'))

theorem xorSum_of_mem (l : List ((Nat × Nat) × Nat)) (e : (Nat × Nat) × Nat)
    (hd : l.Pairwise (fun a b => a.1 ≠ b.1)) (he : e ∈ l) :
    xorSum l e.1.1 e.1.2 = e.2 := by
  induction l with
  | nil => cases he
  | cons a t ih =>
    rcases List.mem_cons.mp he with rfl | he'
    · rw [xorSum, if_pos ⟨rfl, rfl⟩, xorSum_eq_zero]
      · exact Nat.xor_zero e.2
      · intro e' he' hc
        exact (List.pairwise_cons.mp hd).1 e' he' (Prod.ext hc.1 hc.2).symm
    · rw [xorSum, if_neg, ih (List.pairwise_cons.mp hd).2 he']
      intro hc
      exact (List.pairwise_cons.mp hd).1 e he' (Prod.ext hc.1 hc.2)

theorem orHits_congr (t : List ((Nat × Nat) × Nat)) :
    ∀ (v v' : Nat → Nat → Nat) (f : Nat),
      (∀ e ∈ t, v e.1.1 e.1.2 = v' e.1.1 e.1.2) → orHits t v f = orHits t v' f := by
  induction t with
  | nil => intro v v' f _; rfl
  | cons a t ih =>
    intro v v' f h
    show orHits t v _ = orHits t v' _
    rw [h a (List.mem_cons_self a t)]
    exact ih v v' _ (fun e he => h e (List.mem_cons_of_mem a he))

theorem xorRun_snd (l : List ((Nat × Nat) × Nat)) :
    ∀ (v : Nat → Nat → Nat) (f : Nat),
      l.Pairwise (fun a b => a.1 ≠ b.1) → (xorRun l v f).2 = orHits l v f := by
  induction l with
  | nil => intro v f _; rfl
  | cons e t ih =>
    intro v f hd
    show (xorRun t _ _).2 = orHits t v _
    rw [ih _ _ (List.pairwise_cons.mp hd).2]
    exact orHits_congr t _ v _ (fun e' he' =>
      updf2_ne _ _ _ _ _ _ (fun hc => (List.pairwise_cons.mp hd).1 e' he'
        ((Prod.ext hc.1 hc.2).symm : e.1 = e'.1)))

theorem orHits_acc_one (t : List ((Nat × Nat) × Nat)) (v : Nat → Nat → Nat)
    (hterms : ∀ e ∈ t, e.2 ≤ 1) : orHits t v 1 = 1 := by
  induction t with
  | nil => rfl
  | cons a t ih =>
    show orHits t v _ = 1
    have h1 : a.2 &&& v a.1.1 a.1.2 ≤ 1 := and_le_one_left _ (hterms a (List.mem_cons_self a t))
    have h2 : (1 : Nat) ||| (a.2 &&& v a.1.1 a.1.2) = 1 := by
      interval_cases h : (a.2 &&& v a.1.1 a.1.2) <;> decide
    rw [h2]
    exact ih (fun e he => hterms e (List.mem_cons_of_mem a he))

theorem orHits_eq_one (l : List ((Nat × Nat) × Nat)) (v : Nat → Nat → Nat)
    (e : (Nat × Nat) × Nat) :
    ∀ (f : Nat), f ≤ 1 → (∀ e' ∈ l, e'.2 ≤ 1) → e ∈ l →
      e.2 &&& v e.1.1 e.1.2 = 1 → orHits l v f = 1 := by
  induction l with
  | nil => intro f _ _ he; cases he
  | cons a t ih =>
    intro f hf hterms he hhit
    rcases List.mem_cons.mp he with rfl | he'
    · show orHits t v _ = 1
      rw [hhit]
      have h2 : f ||| 1 = 1 := by interval_cases f <;> decide
      rw [h2]
      exact orHits_acc_one t v (fun e' he' => hterms e' (List.mem_cons_of_mem e he'))
    · show orHits t v _ = 1
      have hle : a.2 &&& v a.1.1 a.1.2 ≤ 1 :=
        and_le_one_left _ (hterms a (List.mem_cons_self a t))
      exact ih _ (or_le_one hf hle)
        (fun e' he'' => hterms e' (List.mem_cons_of_mem a he'')) he' hhit

theorem xorRun_append (l1 l2 : List ((Nat × Nat) × Nat)) :
    ∀ (v : Nat → Nat → Nat) (f : Nat),
      xorRun (l1 ++ l2) v f = xorRun l2 (xorRun l1 v f).1 (xorRun l1 v f).2 := by
  induction l1 with
  | nil => intro v f; rfl
  | cons e t ih => intro v f; exact ih _ _

theorem drawTargets_split (X Y ir n : Nat) (ram : Nat → Nat) :
    drawTargets X Y ir (n + 1) ram = drawTargets X Y ir n ram ++
      (List.range 8).map (fun j =>
        (((Y + n) % 32, (X + j) % 64), Chip8.spriteBit (ram (ir + n)) j)) := by
  unfold drawTargets
  rw [List.range_succ, List.flatMap_append]
  simp

theorem mem_drawTargets (X Y ir n : Nat) (ram : Nat → Nat) (e : (Nat × Nat) × Nat) :
    e ∈ drawTargets X Y ir n ram ↔ ∃ i, i < n ∧ ∃ j, j < 8 ∧
      e = (((Y + i) % 32, (X + j) % 64), Chip8.spriteBit (ram (ir + i)) j) := by
  simp only [drawTargets, List.mem_flatMap, List.mem_map, List.mem_range]
  constructor
  · rintro ⟨i, hi, j, hj, rfl⟩
    exact ⟨i, hi, j, hj, rfl⟩
  · rintro ⟨i, hi, j, hj, rfl⟩
    exact ⟨i, hi, j, hj, rfl⟩

theorem drawTargets_pairwise (X Y ir : Nat) (ram : Nat → Nat) :
    ∀ (n : Nat), n ≤ 32 →
      (drawTargets X Y ir n ram).Pairwise (fun a b => a.1 ≠ b.1) := by
  intro n
  induction n with
  | zero => intro _; exact List.Pairwise.nil
  | succ n ih =>
    intro hn
    rw [drawTargets_split, List.pairwise_append]
    refine ⟨ih (by omega), ?_, ?_⟩
    · rw [List.pairwise_map, List.pairwise_iff_getElem]
      intro i j hi hj hij
      simp only [List.getElem_range, List.length_range] at hi hj ⊢
      intro hc
      simp only [Prod.mk.injEq] at hc
      omega
    · intro a ha b hb
      rw [mem_drawTargets] at ha
      obtain ⟨i, hi, j, hj, rfl⟩ := ha
      rw [List.mem_map] at hb
      obtain ⟨j', hj', rfl⟩ := hb
      rw [List.mem_range] at hj'
      intro hc
      dsimp only at hc
      simp only [Prod.mk.injEq] at hc
      omega

theorem drawInner_run (yy x row : Nat) (regs0 : Nat → Nat) (hx : x ≠ 15) (js : List Nat) :
    ∀ (v : Nat → Nat → Nat) (f : Nat),
      js.foldl (Chip8.drawInner yy x row) (v, updf regs0 15 f) =
        ((xorRun (js.map (fun j => ((yy, (regs0 x + j) % 64), Chip8.spriteBit row j))) v f).1,
         updf regs0 15
           (xorRun (js.map (fun j => ((yy, (regs0 x + j) % 64), Chip8.spriteBit row j))) v f).2) := by
  induction js with
  | nil => intro v f; rfl
  | cons j js ih =>
    intro v f
    rw [List.foldl_cons, List.map_cons]
    have hstep : Chip8.drawInner yy x row (v, updf regs0 15 f) j =
        (updf2 v yy ((regs0 x + j) % 64) (v yy ((regs0 x + j) % 64) ^^^ Chip8.spriteBit row j),
         updf regs0 15 (f ||| (Chip8.spriteBit row j &&& v yy ((regs0 x + j) % 64)))) := by
      unfold Chip8.drawInner
      dsimp only
      rw [updf_updf_self, updf_at, updf_ne regs0 15 f x hx]
    rw [hstep, ih]
    rfl

theorem op_dxyn_fold (s : Chip8) (x y : Nat) (hx : x ≠ 15) (hy : y ≠ 15) (n : Nat) :
    (∀ i, i < n → s.ir + i < 4096) →
      (List.range n).foldl
        (fun acc i =>
          match acc with
          | none => none
          | some p =>
            if s.ir + i < 4096 then
              some ((List.range 8).foldl
                (Chip8.drawInner ((p.2 y + i) % 32) x (s.ram (s.ir + i))) p)
            else none)
        (some (s.vram, updf s.registers 15 0)) =
      some ((xorRun (drawTargets (s.registers x) (s.registers y) s.ir n s.ram) s.vram 0).1,
            updf s.registers 15
              (xorRun (drawTargets (s.registers x) (s.registers y) s.ir n s.ram) s.vram 0).2) := by
  induction n with
  | zero => intro _; rfl
  | succ n ih =>
    intro hb
    have hr : List.range (n + 1) = List.range n ++ [n] := by exact List.range_succ n
    rw [hr, List.foldl_append, ih (fun i hi => hb i (by omega)),
      List.foldl_cons, List.foldl_nil]
    dsimp only
    rw [if_pos (hb n (by omega))]
    rw [updf_ne s.registers 15 _ y hy]
    rw [drawInner_run _ x _ s.registers hx (List.range 8) _ _]
    rw [drawTargets_split, xorRun_append]

theorem op_dxyn_run (s : Chip8) (x y n : Nat) (hx : x ≠ 15) (hy : y ≠ 15)
    (hb : ∀ i, i < n → s.ir + i < 4096) :
    Chip8.op_dxyn s x y n = Outcome.ok { s with
      vram := (xorRun (drawTargets (s.registers x) (s.registers y) s.ir n s.ram) s.vram 0).1,
      registers := updf s.registers 15
        (xorRun (drawTargets (s.registers x) (s.registers y) s.ir n s.ram) s.vram 0).2,
      draw_flag := true } := by
  unfold Chip8.op_dxyn
  rw [op_dxyn_fold s x y hx hy n hb]

/-- C7 (amended): for coordinate operand registers distinct from the flag
register (`x ≠ 15`, `y ≠ 15`), sprite height at most 32 and all sprite rows
readable in memory, drawing the same sprite twice at identical coordinates
restores every framebuffer pixel to its value before the first draw, and
the flag register is 1 after the second draw whenever at least one set
sprite bit targets a pixel that was clear before the first draw. -/
theorem claim_C7_double_draw (s : Chip8) (x y n : Nat)
    (hx : x ≠ 15) (hy : y ≠ 15) (hn : n ≤ 32)
    (hb : ∀ i, i < n → s.ir + i < 4096) :
    ∃ s1 s2, Chip8.op_dxyn s x y n = Outcome.ok s1 ∧
      Chip8.op_dxyn s1 x y n = Outcome.ok s2 ∧
      (∀ r c, s2.vram r c = s.vram r c) ∧
      ((∃ i, i < n ∧ ∃ j, j < 8 ∧ Chip8.spriteBit (s.ram (s.ir + i)) j = 1 ∧
          s.vram ((s.registers y + i) % 32) ((s.registers x + j) % 64) = 0) →
        s2.registers 15 = 1) := by
  have h1 := op_dxyn_run s x y n hx hy hb
  have h2 := op_dxyn_run
    { s with
      vram := (xorRun (drawTargets (s.registers x) (s.registers y) s.ir n s.ram) s.vram 0).1,
      registers := updf s.registers 15
        (xorRun (drawTargets (s.registers x) (s.registers y) s.ir n s.ram) s.vram 0).2,
      draw_flag := true }
    x y n hx hy hb
  have hdist := drawTargets_pairwise (s.registers x) (s.registers y) s.ir s.ram n hn
  rw [show drawTargets
      (Chip8.registers { s with
        vram := (xorRun (drawTargets (s.registers x) (s.registers y) s.ir n s.ram) s.vram 0).1,
        registers := updf s.registers 15
          (xorRun (drawTargets (s.registers x) (s.registers y) s.ir n s.ram) s.vram 0).2,
        draw_flag := true } x)
      (Chip8.registers { s with
        vram := (xorRun (drawTargets (s.registers x) (s.registers y) s.ir n s.ram) s.vram 0).1,
        registers := updf s.registers 15
          (xorRun (drawTargets (s.registers x) (s.registers y) s.ir n s.ram) s.vram 0).2,
        draw_flag := true } y)
      s.ir n s.ram
      = drawTargets (s.registers x) (s.registers y) s.ir n s.ram from by
    dsimp only
    rw [updf_ne s.registers 15 _ x hx, updf_ne s.registers 15 _ y hy]] at h2
  refine ⟨_, _, h1, h2, ?_, ?_⟩
  · intro r c
    dsimp only
    rw [xorRun_fst, xorRun_fst, Nat.xor_assoc, Nat.xor_self, Nat.xor_zero]
  · rintro ⟨i, hi, j, hj, hbit, hclear⟩
    dsimp only
    rw [updf_at]
    rw [xorRun_snd _ _ _ hdist]
    refine orHits_eq_one _ _
      (((s.registers y + i) % 32, (s.registers x + j) % 64),
        Chip8.spriteBit (s.ram (s.ir + i)) j)
      0 (Nat.zero_le 1) ?_ ?_ ?_
    · intro e' he'
      rw [mem_drawTargets] at he'
      obtain ⟨i', _, j', _, rfl⟩ := he'
      exact spriteBit_le_one _ _
    · exact (mem_drawTargets _ _ _ _ _ _).mpr ⟨i, hi, j, hj, rfl⟩
    · dsimp only
      rw [xorRun_fst]
      rw [xorSum_of_mem _
        (((s.registers y + i) % 32, (s.registers x + j) % 64),
          Chip8.spriteBit (s.ram (s.ir + i)) j)
        hdist ((mem_drawTargets _ _ _ _ _ _).mpr ⟨i, hi, j, hj, rfl⟩)]
      rw [hbit, hclear]
      show 1 &&& (0 ^^^ 1) = 1
      decide

/-- C7 counterexample: framebuffer with pixel (0,0) set, sprite byte `0x80`
(one set bit) drawn at (0,0) twice: the sprite is non-trivial, yet the flag
register after the second draw is 0, refuting the claim's collision clause
as stated. -/
theorem claim_C7_counterexample :
    outReg (obind (Chip8.op_dxyn { Chip8.new [] with
        vram := updf2 (fun _ _ => 0) 0 0 1,
        ram := updf (fun _ => 0) 0 0x80 } 0 1 1)
      (fun t => Chip8.op_dxyn t 0 1 1)) 15 = some 0 ∧
    Chip8.spriteBit 0x80 0 = 1 := by
  exact ⟨rfl, rfl⟩

/-- C7 witness: all-clear framebuffer, sprite byte `0x80` at (0,0), height
1: the amended double-draw theorem applies, and its collision premise is
satisfied by the set bit at row 0, bit 0 landing on a clear pixel. -/
theorem claim_C7_witness :
    ∃ s1 s2, Chip8.op_dxyn
        { Chip8.new [] with ram := updf (fun _ => 0) 0 0x80 } 0 1 1 = Outcome.ok s1 ∧
      Chip8.op_dxyn s1 0 1 1 = Outcome.ok s2 ∧
      (∀ r c, s2.vram r c =
        ({ Chip8.new [] with ram := updf (fun _ => 0) 0 0x80 } : Chip8).vram r c) ∧
      ((∃ i, i < 1 ∧ ∃ j, j < 8 ∧
          Chip8.spriteBit
            (({ Chip8.new [] with ram := updf (fun _ => 0) 0 0x80 } : Chip8).ram (0 + i)) j = 1 ∧
          ({ Chip8.new [] with ram := updf (fun _ => 0) 0 0x80 } : Chip8).vram
            ((0 + i) % 32) ((0 + j) % 64) = 0) →
        s2.registers 15 = 1) :=
  claim_C7_double_draw { Chip8.new [] with ram := updf (fun _ => 0) 0 0x80 } 0 1 1
    (by decide) (by decide) (by decide) (fun i hi => by show 0 + i < 4096; omega)
